import Mathlib

/-!
Shallow embedding of `review8.py`, an automatic PEP-8 review script.

The script shells out to three external tools (git, flake8, pydiff) and
compares their outputs.  External tool behaviour is modelled by explicit
parameters (a `world` function mapping a command to its result, a
`repoContentAt` function giving working-tree file contents per revision,
a `valid` predicate telling which revisions `git checkout` accepts, and a
`pydiffFn` collaborator).  Stateful code (current branch, working
directory, temporary directories, issued commands) is modelled by explicit
state passing in a state-plus-error monad `M`; Python exceptions become
`Except.error`.
-/

namespace Review8

/-- Whitespace characters stripped by Python's `str.strip()`. -/
def isPySpace (c : Char) : Bool :=
  c == ' ' || c == '\t' || c == '\n' || c == '\r' || c == '\x0b' || c == '\x0c'

/-- Strip leading and trailing whitespace from a character list. -/
def stripList (l : List Char) : List Char :=
  ((l.dropWhile isPySpace).reverse.dropWhile isPySpace).reverse

/-- Python `s.strip()`. -/
def pyStrip (s : String) : String := String.mk (stripList s.data)

/-- Python `s.split(c)` for a single-character separator: splitting the empty
string yields `[[]]` (one empty field), exactly as in Python. -/
def splitOnChar (c : Char) : List Char → List (List Char)
  | [] => [[]]
  | x :: xs =>
    let r := splitOnChar c xs
    if x = c then [] :: r
    else
      match r with
      | [] => [[x]]
      | y :: ys => (x :: y) :: ys

/-- Result of running one external command: exit status and captured stdout. -/
structure CmdResult where
  exitCode : Nat
  stdout : String
deriving Repr, DecidableEq

/-- The message of the exception raised by `execute` on a non-zero exit
(`'Error while running command "{0}"'.format(command)`). -/
def errorMessage (command : String) : String :=
  "Error while running command \"" ++ command ++ "\""

/-- Replace every (non-overlapping, leftmost-first) occurrence of `pat` by
`rep`, fuel-indexed so that it is structurally recursive.  `fuel` bounds the
number of characters consumed, so `l.length` fuel always suffices. -/
def replaceFuel (pat rep : List Char) : Nat → List Char → List Char
  | 0, l => l
  | _ + 1, [] => []
  | fuel + 1, x :: xs =>
    if pat ≠ [] ∧ List.isPrefixOf pat (x :: xs) then
      rep ++ replaceFuel pat rep fuel (List.drop pat.length (x :: xs))
    else x :: replaceFuel pat rep fuel xs

/-- Python `s.replace(pat, rep)` (for the non-empty patterns used here). -/
def pyReplace (s pat rep : String) : String :=
  String.mk (replaceFuel pat.data rep.data s.data.length s.data)

/-- Python `command % data` for a mapping whose values are plain strings and
whose placeholders all have the form `%(key)s`, which is the only form the
script's docstring uses. -/
def pyInterp (command : String) (data : List (String × String)) : String :=
  data.foldl (fun c kv => pyReplace c ("%(" ++ kv.1 ++ ")s") kv.2) command

/-- `execute(command, data={})` from `review8.py`: interpolate `data` into the
command when non-empty, run it in a shell (modelled by `world`), raise when
the child exits non-zero, and otherwise return the captured stdout. -/
def execute (world : String → CmdResult) (command : String)
    (data : List (String × String) := []) : Except String String :=
  let command2 := if data.isEmpty then command else pyInterp command data
  let res := world command2
  if res.exitCode ≠ 0 then Except.error (errorMessage command2)
  else Except.ok res.stdout

/-- Number of newline characters in a string: what `wc -l` reports. -/
def countNewlines (s : String) : Nat := (s.data.filter (fun c => c == '\n')).length

/-- Decimal digits (most significant first) of `n`, fuel-indexed so that the
recursion is structural; `fuel ≥ n` suffices for a correct answer. -/
def natToDecAux : Nat → Nat → List Char
  | 0, _ => []
  | fuel + 1, n =>
    if n = 0 then []
    else natToDecAux fuel (n / 10) ++ [Char.ofNat (48 + n % 10)]

/-- Decimal rendering of a natural number, as `wc -l` prints it. -/
def natToDec (n : Nat) : String :=
  if n = 0 then "0" else String.mk (natToDecAux n n)

/-- One step of decimal parsing: accumulator so far, next character. -/
def decDigitStep (acc : Option Nat) (c : Char) : Option Nat :=
  match acc with
  | none => none
  | some n => if 48 ≤ c.toNat ∧ c.toNat ≤ 57 then some (n * 10 + (c.toNat - 48)) else none

/-- Python `int(s)` restricted to non-negative decimal literals: `none` models
the `ValueError` raised on non-numeric input. -/
def decToNat (s : String) : Option Nat :=
  match s.data with
  | [] => none
  | l => l.foldl decDigitStep (some 0)

/-- The shell pipeline `flake8 PATH | wc -l`: without `pipefail`, the overall
exit status is that of the final command, and `wc -l` itself always exits 0,
printing the number of input newlines followed by a newline. -/
def flake8Pipeline (flake8Res : CmdResult) : CmdResult :=
  { exitCode := 0, stdout := natToDec (countNewlines flake8Res.stdout) ++ "\n" }

/-- `flake8_count(path)`: run the pipeline through `execute` and parse the
stripped output with `int(...)`.  The style checker's own behaviour on the
path is the parameter `flake8Res`. -/
def flake8_count (flake8Res : CmdResult) : Except String Nat :=
  match execute (fun _ => flake8Pipeline flake8Res) "flake8 path | wc -l" with
  | Except.error e => Except.error e
  | Except.ok out =>
    match decToNat (pyStrip out) with
    | some n => Except.ok n
    | none => Except.error "ValueError: invalid literal for int"

/-- The message of Python's `IndexError` raised by `''[0]`. -/
def indexErrorMsg : String := "IndexError: string index out of range"

/-- `git_status_files(repository_dir, start, end, status)`, as a function of
the output of `git diff --name-status start end`: strip the output, split on
newlines, and for each line take `line[0]` as the status (raising `IndexError`
on an empty line, as Python does) and `line[1:].strip()` as the filename,
yielding filenames whose status matches.  The result is the fully consumed
generator: the list of yielded filenames, or the exception that interrupts
the iteration. -/
def git_status_files (output : String) (status : Char) : Except String (List String) :=
  let lines := splitOnChar '\n' (stripList output.data)
  lines.foldlM
    (fun acc line =>
      match line with
      | [] => Except.error indexErrorMsg
      | c :: rest =>
        if c = status then Except.ok (acc ++ [String.mk (stripList rest)])
        else Except.ok acc)
    []

/-- `git_deleted_files`, as a function of the diff output. -/
def git_deleted_files (output : String) : Except String (List String) :=
  git_status_files output 'D'

/-- `git_modified_files`, as a function of the diff output. -/
def git_modified_files (output : String) : Except String (List String) :=
  git_status_files output 'M'

/-- `git_created_files`, as a function of the diff output. -/
def git_created_files (output : String) : Except String (List String) :=
  git_status_files output 'A'

/-- The final phase of `git_review8` (lines 230-234): compute
`diff = end_pep8_report - start_pep8_report` over the integers and print the
OK line when `diff < 0`, the ERROR line otherwise. -/
def git_review8_verdict (start_pep8_report end_pep8_report : Nat) : String :=
  if (end_pep8_report : Int) - (start_pep8_report : Int) < 0 then
    "OK: flake8 reported less errors"
  else
    "ERROR: flake8 reported more or equal errors"

/-- Observable external actions issued by the script.  A `checkout` records
the revision handed to `git checkout`; `copyFile` records `shutil.copy2`
together with the content actually copied; `pydiffRun` records a `pydiff`
invocation together with the branch the repository was checked out at when
the tool ran. -/
inductive Event where
  | checkout (target : String)
  | copyFile (src dst content : String)
  | pydiffRun (f1 f2 branch : String)
deriving Repr, DecidableEq

/-- Process-and-repository state threaded through the stateful fragments:
current branch, current working directory, a counter for fresh temporary
directory names, the set of live temporary directories, the temporary files
created so far (newest first), and the log of issued external actions. -/
structure St where
  branch : String
  cwd : String
  nextTemp : Nat
  dirs : List String
  files : List (String × String)
  log : List Event
deriving Repr, DecidableEq

/-- State transformer with exceptions: the state is preserved across a raise
(Python exceptions do not roll back side effects). -/
def M (α : Type) : Type := St → Except String α × St

/-- Sequencing in `M`: on an exception the continuation is skipped. -/
def bindM {α β : Type} (x : M α) (f : α → M β) : M β := fun s =>
  match x s with
  | (Except.error e, s1) => (Except.error e, s1)
  | (Except.ok a, s1) => f a s1

/-- The `chdir` context manager: record the current directory, switch to
`path`, run the body, and restore the recorded directory in a `finally`. -/
def chdir {α : Type} (path : String) (body : M α) : M α := fun s =>
  let backup := s.cwd
  let (r, s1) := body { s with cwd := path }
  (r, { s1 with cwd := backup })

/-- `execute('git checkout {commit}')`: the command is always issued (logged);
it succeeds and moves the working tree exactly when `valid commit`, and
otherwise `execute` raises, leaving the branch unchanged. -/
def runGitCheckout (valid : String → Bool) (commit : String) : M Unit := fun s =>
  let s1 := { s with log := s.log ++ [Event.checkout commit] }
  if valid commit then (Except.ok (), { s1 with branch := commit })
  else (Except.error (errorMessage ("git checkout " ++ commit)), s1)

/-- `git_branch(repository_dir)`: query the current branch inside a `chdir`
scope.  `git rev-parse --abbrev-ref HEAD` is read-only and always succeeds. -/
def git_branch (repository_dir : String) : M String :=
  chdir repository_dir (fun s => (Except.ok s.branch, s))

/-- The `git_checkout` context manager of `review8.py`, as a combinator over
the scope body.  Inside a `chdir` to the repository: read the current branch
as `backup`; if it differs from `commit`, run `try: checkout commit; body
finally: checkout backup` — note that the entry checkout sits inside the
`try`, so the `finally` checkout is issued even when the entry checkout
raises, and an exception raised by the `finally` checkout replaces the
in-flight one; if `backup == commit`, the body runs bare. -/
def git_checkout {α : Type} (valid : String → Bool) (repository_dir commit : String)
    (body : M α) : M α :=
  chdir repository_dir (fun s =>
    let backup := s.branch
    if backup ≠ commit then
      let (r1, s1) := runGitCheckout valid commit s
      let (r2, s2) :=
        match r1 with
        | Except.error e => (Except.error e, s1)
        | Except.ok _ => body s1
      let (r3, s3) := runGitCheckout valid backup s2
      match r3 with
      | Except.error e => (Except.error e, s3)
      | Except.ok _ => (r2, s3)
    else body s)

/-- The fresh directory name `tempfile.mkdtemp()` hands out when the counter
is `n`. -/
def tempDirName (n : Nat) : String := "/tmp/tmp" ++ natToDec n

/-- `p` lies strictly under directory `dir`. -/
def isUnder (dir p : String) : Bool := List.isPrefixOf (dir.data ++ ['/']) p.data

/-- The `temporary_directory` context manager: `__enter__` creates a fresh
directory and yields its path; `__exit__` always runs and removes the
directory and everything under it recursively (`shutil.rmtree`), without
suppressing an exception raised by the body. -/
def temporary_directory {α : Type} (body : String → M α) : M α := fun s =>
  let d := tempDirName s.nextTemp
  let s1 := { s with nextTemp := s.nextTemp + 1, dirs := s.dirs ++ [d] }
  let (r, s2) := body d s1
  (r, { s2 with
        dirs := s2.dirs.filter (fun x => x ≠ d && !(isUnder d x)),
        files := s2.files.filter (fun kv => !(isUnder d kv.1)) })

/-- `os.path.basename` for the slash-separated relative paths used here. -/
def basename (p : String) : String :=
  String.mk ((splitOnChar '/' p.data).getLastD [])

/-- `os.path.join` for the two-component joins used here. -/
def pathJoin (a b : String) : String := a ++ "/" ++ b

/-- Content of path `p` in state `s`: a temporary file if one was written
there, and otherwise the working-tree content `repoContentAt s.branch p`,
which depends on the currently checked-out branch. -/
def fileContent (repoContentAt : String → String → String) (s : St) (p : String) : String :=
  match s.files.lookup p with
  | some c => c
  | none => repoContentAt s.branch p

/-- `shutil.copy2(src, dst)`: read `src` in the current state and write its
content to `dst`, logging the copy. -/
def copy2 (repoContentAt : String → String → String) (src dst : String) : M Unit := fun s =>
  let content := fileContent repoContentAt s src
  (Except.ok (),
   { s with files := (dst, content) :: s.files,
            log := s.log ++ [Event.copyFile src dst content] })

/-- `execute('pydiff {0} {1}'.format(f1, f2))`: run the collaborator on the
contents of the two paths (pydiff exits 0 whether or not the bytecodes
differ), logging the invocation together with the branch it ran under. -/
def runPydiff (repoContentAt : String → String → String)
    (pydiffFn : String → String → String) (f1 f2 : String) : M String := fun s =>
  (Except.ok (pydiffFn (fileContent repoContentAt s f1) (fileContent repoContentAt s f2)),
   { s with log := s.log ++ [Event.pydiffRun f1 f2 s.branch] })

/-- `bytecode_diff(filename, repository_dir, start_commit, end_commit)`:
inside a checkout of `end_commit` and a temporary directory, copy the start
revision of the file into the temporary directory under a nested checkout of
`start_commit`, then (after that nested scope has closed) run `pydiff` on the
copy and the working-tree file. -/
def bytecode_diff (valid : String → Bool)
    (repoContentAt : String → String → String)
    (pydiffFn : String → String → String)
    (filename repository_dir start_commit end_commit : String) : M String :=
  git_checkout valid repository_dir end_commit
    (temporary_directory (fun temp_dir =>
      let start_file := pathJoin temp_dir (basename filename)
      let end_file := pathJoin repository_dir filename
      bindM (git_checkout valid repository_dir start_commit
               (copy2 repoContentAt end_file start_file))
        (fun _ => runPydiff repoContentAt pydiffFn start_file end_file)))

/-- `true` for every event except a `pydiffRun` logged under a branch other
than `target`: used to state that every pydiff invocation ran with the
repository checked out at `target`. -/
def pydiffAtBranch (target : String) : Event → Bool
  | Event.pydiffRun _ _ b => b == target
  | _ => true

/-! ### Helper lemmas -/

lemma dropWhile_all_false (p : Char → Bool) (l : List Char)
    (h : ∀ c ∈ l, p c = false) : l.dropWhile p = l := by
  cases l with
  | nil => rfl
  | cons a as => simp [List.dropWhile_cons, h a (by simp)]

lemma stripList_nonspace_newline (l : List Char) (hne : l ≠ [])
    (hns : ∀ c ∈ l, isPySpace c = false) : stripList (l ++ ['\n']) = l := by
  obtain ⟨c, cs, rfl⟩ := List.exists_cons_of_ne_nil hne
  have hc : isPySpace c = false := hns c (by simp)
  unfold stripList
  rw [List.cons_append, List.dropWhile_cons, hc]
  simp only [Bool.false_eq_true, if_false]
  have hrev : (c :: (cs ++ ['\n'])).reverse = '\n' :: (cs.reverse ++ [c]) := by simp
  rw [hrev, List.dropWhile_cons, if_pos (by decide : isPySpace '\n' = true)]
  rw [dropWhile_all_false _ _ (by
    intro x hx
    rcases List.mem_append.mp hx with h1 | h2
    · exact hns x (by simp [List.mem_reverse.mp h1])
    · simp at h2; subst h2; exact hc)]
  simp

lemma isPySpace_digit (d : Nat) (h : d < 10) :
    isPySpace (Char.ofNat (48 + d)) = false := by
  interval_cases d <;> decide

lemma toNat_ofNat_digit (d : Nat) (h : d < 10) :
    (Char.ofNat (48 + d)).toNat = 48 + d := by
  interval_cases d <;> decide

lemma decDigitStep_digit (a d : Nat) (h : d < 10) :
    decDigitStep (some a) (Char.ofNat (48 + d)) = some (a * 10 + d) := by
  simp only [decDigitStep, toNat_ofNat_digit d h]
  rw [if_pos ⟨by omega, by omega⟩]
  congr 1
  omega

lemma natToDecAux_digits (fuel : Nat) : ∀ n, ∀ c ∈ natToDecAux fuel n,
    ∃ d, d < 10 ∧ c = Char.ofNat (48 + d) := by
  induction fuel with
  | zero => intro n c hc; simp [natToDecAux] at hc
  | succ fuel ih =>
    intro n c hc
    unfold natToDecAux at hc
    by_cases hn : n = 0
    · simp [hn] at hc
    · rw [if_neg hn] at hc
      rcases List.mem_append.mp hc with h1 | h2
      · exact ih _ c h1
      · simp at h2
        exact ⟨n % 10, Nat.mod_lt _ (by omega), h2⟩

lemma foldl_decDigitStep_natToDecAux (fuel : Nat) : ∀ n a, n ≤ fuel →
    List.foldl decDigitStep (some a) (natToDecAux fuel n)
      = some (a * 10 ^ (natToDecAux fuel n).length + n) := by
  induction fuel with
  | zero =>
    intro n a h
    interval_cases n
    simp [natToDecAux]
  | succ fuel ih =>
    intro n a h
    by_cases hn : n = 0
    · subst hn; simp [natToDecAux]
    · unfold natToDecAux
      rw [if_neg hn, List.foldl_append]
      have hle : n / 10 ≤ fuel := by omega
      rw [ih (n / 10) a hle]
      simp only [List.foldl_cons, List.foldl_nil]
      rw [decDigitStep_digit _ (n % 10) (Nat.mod_lt _ (by omega))]
      rw [List.length_append, List.length_singleton, pow_succ]
      congr 1
      have h2 : n / 10 * 10 + n % 10 = n := by omega
      calc (a * 10 ^ (natToDecAux fuel (n / 10)).length + n / 10) * 10 + n % 10
          = a * (10 ^ (natToDecAux fuel (n / 10)).length * 10)
              + (n / 10 * 10 + n % 10) := by ring
        _ = a * (10 ^ (natToDecAux fuel (n / 10)).length * 10) + n := by rw [h2]

lemma natToDec_data_ne_nil (n : Nat) : (natToDec n).data ≠ [] := by
  unfold natToDec
  by_cases hn : n = 0
  · rw [if_pos hn]; simp
  · rw [if_neg hn]
    show natToDecAux n n ≠ []
    cases n with
    | zero => exact absurd rfl hn
    | succ m =>
      unfold natToDecAux
      rw [if_neg hn]
      simp

lemma natToDec_not_space (n : Nat) : ∀ c ∈ (natToDec n).data, isPySpace c = false := by
  intro c hc
  unfold natToDec at hc
  by_cases hn : n = 0
  · rw [if_pos hn] at hc
    simp at hc
    subst hc
    decide
  · rw [if_neg hn] at hc
    obtain ⟨d, hd, rfl⟩ := natToDecAux_digits n n c hc
    exact isPySpace_digit d hd

lemma decToNat_natToDec (n : Nat) : decToNat (natToDec n) = some n := by
  by_cases hn : n = 0
  · subst hn; decide
  · have hne : (natToDec n).data ≠ [] := natToDec_data_ne_nil n
    have hf := foldl_decDigitStep_natToDecAux n n 0 (le_refl n)
    simp only [zero_mul, zero_add] at hf
    unfold decToNat
    obtain ⟨c, cs, hl⟩ := List.exists_cons_of_ne_nil hne
    rw [hl]
    simp only [List.isEmpty_cons, if_false, Bool.false_eq_true]
    rw [← hl]
    show List.foldl decDigitStep (some 0) (natToDec n).data = some n
    have hdata : (natToDec n).data = natToDecAux n n := by
      unfold natToDec
      rw [if_neg hn]
    rw [hdata]
    exact hf

lemma decToNat_pyStrip_wc (m : Nat) :
    decToNat (pyStrip (natToDec m ++ "\n")) = some m := by
  unfold pyStrip
  have hdata : (natToDec m ++ "\n").data = (natToDec m).data ++ ['\n'] := by
    rw [String.data_append]
  rw [hdata, stripList_nonspace_newline _ (natToDec_data_ne_nil m) (natToDec_not_space m)]
  exact decToNat_natToDec m

/-! ### Claim theorems -/

/-- Claim C1 counterexample: with empty diff output (exactly what
`git diff --name-status REV REV` prints for identical revisions), the
enumerator does not yield an empty result — it raises `IndexError`, because
`''.strip().split('\n')` is `['']` and `''[0]` is out of range.  This refutes
the claim that the enumerator "yields no filenames and does not crash". -/
theorem git_status_files_empty_output_counterexample :
    git_status_files "" 'D' = Except.error indexErrorMsg ∧
    git_deleted_files "" ≠ Except.ok [] ∧
    git_created_files "" ≠ Except.ok [] ∧
    git_modified_files "" ≠ Except.ok [] := by
  refine ⟨rfl, fun h => ?_, fun h => ?_, fun h => ?_⟩ <;> exact nomatch h

/-- Claim C1 (amended): for every invocation of the revision enumerator where the
version-control diff command produces empty or whitespace-only output, the
enumerator yields no filenames but raises an `IndexError` while processing
the single empty line left by strip-and-split; in particular, for identical
start and end revisions the deleted, created and modified enumerations all
fail with this error instead of completing empty. -/
theorem git_status_files_empty_output_raises (output : String) (status : Char)
    (h : pyStrip output = "") :
    git_status_files output status = Except.error indexErrorMsg := by
  have h' : stripList output.data = [] := congrArg String.data h
  unfold git_status_files
  rw [h']
  rfl

/-- Witness for C1 (amended) at the whitespace-only output `" \n\t "`. -/
theorem git_status_files_empty_output_raises_witness :
    git_status_files " \n\t " 'D' = Except.error indexErrorMsg :=
  git_status_files_empty_output_raises " \n\t " 'D' (by decide)

/-- Claim C2: the final phase of `git_review8` prints the OK message exactly when
the end-revision violation count is strictly lower than the start-revision
count, and prints the error-level message exactly when it is equal or
greater. -/
theorem git_review8_verdict_ok_iff (s2 e2 : Nat) :
    (git_review8_verdict s2 e2 = "OK: flake8 reported less errors" ↔ e2 < s2) ∧
    (git_review8_verdict s2 e2 = "ERROR: flake8 reported more or equal errors" ↔ s2 ≤ e2) := by
  unfold git_review8_verdict
  by_cases h : e2 < s2
  · have hlt : (e2 : Int) - (s2 : Int) < 0 := by omega
    rw [if_pos hlt]
    exact ⟨⟨fun _ => h, fun _ => rfl⟩,
           ⟨fun heq => absurd heq (by decide), fun hle => absurd hle (by omega)⟩⟩
  · have hge : ¬ ((e2 : Int) - (s2 : Int) < 0) := by omega
    rw [if_neg hge]
    exact ⟨⟨fun heq => absurd heq (by decide), fun hlt => absurd hlt h⟩,
           ⟨fun _ => by omega, fun _ => rfl⟩⟩

/-- Claim C5: `flake8_count` returns exactly the number of output lines of the
style checker, whatever the checker's own exit status: the pipeline's exit
status is that of `wc -l` (always zero), so `execute` never raises for a
failing checker, and a checker that fails while producing no output yields
the count 0 rather than an error. -/
theorem flake8_count_from_line_count (flake8Res : CmdResult) :
    flake8_count flake8Res = Except.ok (countNewlines flake8Res.stdout) := by
  have h := decToNat_pyStrip_wc (countNewlines flake8Res.stdout)
  show (match decToNat (pyStrip (natToDec (countNewlines flake8Res.stdout) ++ "\n")) with
        | some n => Except.ok n
        | none => Except.error "ValueError: invalid literal for int")
      = Except.ok (countNewlines flake8Res.stdout)
  rw [h]

/-- Claim C8: `execute` raises exactly when the spawned child exits non-zero, the
raised error carries the command string that was run (equal to the original
command when no substitutions are supplied, as at every call site of this
script), and on zero exit it returns the captured standard output. -/
theorem execute_error_iff_nonzero_exit (world : String → CmdResult)
    (command : String) (data : List (String × String)) :
    (execute world command data
        = Except.error (errorMessage (if data.isEmpty then command else pyInterp command data))
      ↔ (world (if data.isEmpty then command else pyInterp command data)).exitCode ≠ 0) ∧
    (execute world command data
        = Except.ok (world (if data.isEmpty then command else pyInterp command data)).stdout
      ↔ (world (if data.isEmpty then command else pyInterp command data)).exitCode = 0) := by
  set c2 := if data.isEmpty then command else pyInterp command data with hc2
  have hex : execute world command data
      = if (world c2).exitCode ≠ 0 then Except.error (errorMessage c2)
        else Except.ok (world c2).stdout := rfl
  by_cases h : (world c2).exitCode ≠ 0
  · rw [hex, if_pos h]
    exact ⟨⟨fun _ => h, fun _ => rfl⟩,
           ⟨fun heq => absurd heq (by simp), fun h0 => absurd h0 h⟩⟩
  · rw [hex, if_neg h]
    push_neg at h
    exact ⟨⟨fun heq => absurd heq (by simp), fun hne => absurd h hne⟩,
           ⟨fun _ => h, fun _ => rfl⟩⟩

/-- Witness for C8: a child that exits 1 makes `execute` raise the generic
error carrying the command string, and a child that exits 0 makes it return
the captured stdout. -/
theorem execute_error_iff_nonzero_exit_witness :
    execute (fun _ => ⟨1, ""⟩) "false" [] = Except.error (errorMessage "false") ∧
    execute (fun _ => ⟨0, "out"⟩) "true" [] = Except.ok "out" :=
  ⟨(execute_error_iff_nonzero_exit (fun _ => ⟨1, ""⟩) "false" []).1.mpr (by decide),
   (execute_error_iff_nonzero_exit (fun _ => ⟨0, "out"⟩) "true" []).2.mpr (by decide)⟩

lemma runGitCheckout_ok (valid : String → Bool) (c : String) (s : St)
    (h : valid c = true) :
    runGitCheckout valid c s
      = (Except.ok (), { s with branch := c, log := s.log ++ [Event.checkout c] }) := by
  simp [runGitCheckout, h]

lemma runGitCheckout_fail (valid : String → Bool) (c : String) (s : St)
    (h : valid c = false) :
    runGitCheckout valid c s
      = (Except.error (errorMessage ("git checkout " ++ c)),
         { s with log := s.log ++ [Event.checkout c] }) := by
  simp [runGitCheckout, h]

/-- Running a `git_checkout` scope whose target differs from the current
branch, when both the entry and the restoring checkout succeed: the body runs
at the target revision, and the scope always restores the prior branch and
working directory and logs the restoring checkout, whatever the body did or
raised. -/
lemma git_checkout_run_ne {α : Type} (valid : String → Bool)
    (repository_dir c : String) (body : M α) (s : St)
    (hne : s.branch ≠ c) (hc : valid c = true) (hb : valid s.branch = true) :
    git_checkout valid repository_dir c body s
      = ((body { s with cwd := repository_dir, branch := c,
                        log := s.log ++ [Event.checkout c] }).1,
         { (body { s with cwd := repository_dir, branch := c,
                          log := s.log ++ [Event.checkout c] }).2 with
           branch := s.branch, cwd := s.cwd,
           log := (body { s with cwd := repository_dir, branch := c,
                                 log := s.log ++ [Event.checkout c] }).2.log
                  ++ [Event.checkout s.branch] }) := by
  unfold git_checkout chdir
  dsimp only
  rw [if_pos hne]
  rw [runGitCheckout_ok valid c _ hc]
  dsimp only
  rcases h2 : body ({ s with cwd := repository_dir, branch := c, log := s.log ++ [Event.checkout c] }) with ⟨r2, s2⟩
  dsimp only
  rw [runGitCheckout_ok valid s.branch _ hb]

/-- Running a `git_checkout` scope whose target equals the current branch:
the scope is exactly the body inside a `chdir`, with no checkout issued. -/
lemma git_checkout_run_self {α : Type} (valid : String → Bool)
    (repository_dir c : String) (body : M α) (s : St)
    (heq : s.branch = c) :
    git_checkout valid repository_dir c body s
      = ((body { s with cwd := repository_dir }).1,
         { (body { s with cwd := repository_dir }).2 with cwd := s.cwd }) := by
  unfold git_checkout chdir
  dsimp only
  rw [if_neg (fun h => h heq)]

/-- Claim C3: for every `git_checkout` scope whose entry checkout succeeded and
whose body raises, the repository is checked out back to the previously
recorded revision (and the restoring checkout is logged) before the
exception propagates out of the scope. -/
theorem git_checkout_restores_on_body_error {α : Type} (valid : String → Bool)
    (repository_dir commit : String) (body : M α) (s : St) (e : String) (sb : St)
    (hne : s.branch ≠ commit)
    (hcommit : valid commit = true)
    (hbackup : valid s.branch = true)
    (hbody : body { s with cwd := repository_dir, branch := commit, log := s.log ++ [Event.checkout commit] }
             = (Except.error e, sb)) :
    git_checkout valid repository_dir commit body s
      = (Except.error e,
         { sb with branch := s.branch, cwd := s.cwd,
                   log := sb.log ++ [Event.checkout s.branch] }) := by
  rw [git_checkout_run_ne valid repository_dir commit body s hne hcommit hbackup, hbody]

/-- Witness for C3: a body that raises inside a checkout from `main` to
`dev`; the scope re-emits `git checkout main` and the exception propagates. -/
theorem git_checkout_restores_on_body_error_witness :
    git_checkout (fun _ => true) "/r" "dev"
        (fun st => ((Except.error "boom" : Except String Unit), st))
        ⟨"main", "/home", 0, [], [], []⟩
      = (Except.error "boom",
         ⟨"main", "/home", 0, [], [],
          [Event.checkout "dev", Event.checkout "main"]⟩) :=
  git_checkout_restores_on_body_error (fun _ => true) "/r" "dev" _ _ "boom" _
    (by decide) rfl rfl rfl

/-- Claim C4 counterexample: a scope whose initial checkout fails (here `valid`
accepts only `main`, and the target is `dev`).  The claim says no restoring
checkout is issued; but the log shows that after the failed
`git checkout dev`, the `finally` clause still issued `git checkout main` —
the entry checkout sits inside the `try` block, so the release always runs. -/
theorem git_checkout_entry_failure_counterexample :
    git_checkout (fun c => c == "main") "/r" "dev"
        (fun st => ((Except.ok () : Except String Unit), st))
        ⟨"main", "/home", 0, [], [], []⟩
      = (Except.error (errorMessage "git checkout dev"),
         ⟨"main", "/home", 0, [], [],
          [Event.checkout "dev", Event.checkout "main"]⟩) := rfl

/-- Claim C4 (amended): if the initial checkout fails, the error propagates and the
body never runs, but a restoring checkout back to the prior revision is
nevertheless issued by the `finally` clause (the entry checkout is inside the
protected block); since the failed checkout left the branch unchanged, that
restore re-checks-out the already-current branch, and the scope leaves the
branch and working directory as they were. -/
theorem git_checkout_entry_failure_still_restores {α : Type}
    (valid : String → Bool) (repository_dir commit : String) (body : M α) (s : St)
    (hne : s.branch ≠ commit)
    (hfail : valid commit = false)
    (hbackup : valid s.branch = true) :
    git_checkout valid repository_dir commit body s
      = (Except.error (errorMessage ("git checkout " ++ commit)),
         { s with log := s.log ++ [Event.checkout commit, Event.checkout s.branch] }) := by
  unfold git_checkout chdir
  dsimp only
  rw [if_pos hne]
  rw [runGitCheckout_fail valid commit _ hfail]
  dsimp only
  rw [runGitCheckout_ok valid s.branch _ hbackup]
  simp

/-- Witness for C4 (amended), at the counterexample's concrete input but with
an arbitrary body, showing the result is independent of the body. -/
theorem git_checkout_entry_failure_still_restores_witness :
    git_checkout (fun c => c == "main") "/r2" "dev"
        (fun st => ((Except.ok () : Except String Unit),
                    { st with branch := "elsewhere" }))
        ⟨"main", "/h", 3, [], [], []⟩
      = (Except.error (errorMessage "git checkout dev"),
         ⟨"main", "/h", 3, [], [],
          [Event.checkout "dev", Event.checkout "main"]⟩) :=
  git_checkout_entry_failure_still_restores (fun c => c == "main") "/r2" "dev" _ _
    (by decide) rfl rfl

/-- Claim C9: for every `git_checkout` scope whose target revision equals the
current branch, the scope is a pure pass-through: the result and the final
state (in particular the log — so no checkout is issued on entry or exit)
are exactly those of the body run inside the `chdir`, for normal and
exceptional body exits alike. -/
theorem git_checkout_passthrough {α : Type} (valid : String → Bool)
    (repository_dir commit : String) (body : M α) (s : St)
    (heq : s.branch = commit) :
    git_checkout valid repository_dir commit body s
      = ((body { s with cwd := repository_dir }).1,
         { (body { s with cwd := repository_dir }).2 with cwd := s.cwd }) :=
  git_checkout_run_self valid repository_dir commit body s heq

/-- Witness for C9: a raising body inside a scope targeting the current
branch `main`; no checkout event is logged and the exception passes
through. -/
theorem git_checkout_passthrough_witness :
    git_checkout (fun _ => false) "/r" "main"
        (fun st => ((Except.error "boom" : Except String Unit), st))
        ⟨"main", "/home", 0, [], [], []⟩
      = (Except.error "boom", ⟨"main", "/home", 0, [], [], []⟩) :=
  git_checkout_passthrough (fun _ => false) "/r" "main" _ _ rfl

/-- Claim C7: for every `temporary_directory` scope, after the scope exits the
created directory and everything under it are gone from the state — whether
the body completed normally or raised — and the body's outcome (value or
exception) is returned unchanged, so an exception is never suppressed by the
release action. -/
theorem temporary_directory_cleanup {α : Type} (body : String → M α) (s : St) :
    ((temporary_directory body s).2.dirs.all
        (fun x => x ≠ tempDirName s.nextTemp
                  && !(isUnder (tempDirName s.nextTemp) x))) = true ∧
    ((temporary_directory body s).2.files.all
        (fun kv => !(isUnder (tempDirName s.nextTemp) kv.1))) = true ∧
    (temporary_directory body s).1
      = (body (tempDirName s.nextTemp)
          { s with nextTemp := s.nextTemp + 1,
                   dirs := s.dirs ++ [tempDirName s.nextTemp] }).1 := by
  rcases h : body (tempDirName s.nextTemp)
      { s with nextTemp := s.nextTemp + 1,
               dirs := s.dirs ++ [tempDirName s.nextTemp] } with ⟨r, s2⟩
  refine ⟨?_, ?_, ?_⟩
  · rw [List.all_eq_true]
    intro x hx
    simp only [temporary_directory, h] at hx
    exact (List.mem_filter.mp hx).2
  · rw [List.all_eq_true]
    intro kv hkv
    simp only [temporary_directory, h] at hkv
    exact (List.mem_filter.mp hkv).2
  · simp only [temporary_directory, h]

/-- Running the inner phase of `bytecode_diff` (scoped checkout of the start
revision around the copy, then the pydiff invocation) from a state checked
out at the end revision: it returns the collaborator's diff of the two
revisions' contents of the repository file, records the copied start-revision
content under the temporary path, and every `pydiff` invocation it logs runs
with the repository at the end revision. -/
lemma inner_copy_pydiff_run (valid : String → Bool)
    (rca : String → String → String) (pf : String → String → String)
    (repository_dir start_commit end_commit sf ef : String) (t : St)
    (hs : valid start_commit = true)
    (htb : t.branch = end_commit)
    (hvb : valid t.branch = true)
    (hlk : t.files.lookup ef = none)
    (hne2 : ef ≠ sf) :
    ∃ tail : List Event,
      (bindM (git_checkout valid repository_dir start_commit (copy2 rca ef sf))
         (fun _ => runPydiff rca pf sf ef)) t
        = (Except.ok (pf (rca start_commit ef) (rca end_commit ef)),
           { t with files := (sf, rca start_commit ef) :: t.files, log := t.log ++ tail })
      ∧ tail.all (pydiffAtBranch end_commit) = true := by
  subst htb
  have hbeq : (ef == sf) = false := beq_eq_false_iff_ne.mpr hne2
  by_cases hIE : t.branch = start_commit
  · refine ⟨[Event.copyFile ef sf (rca start_commit ef),
             Event.pydiffRun sf ef t.branch], ?_, ?_⟩
    · unfold bindM
      rw [git_checkout_run_self valid repository_dir start_commit _ t hIE]
      simp only [copy2, fileContent, hlk, runPydiff, List.lookup, beq_self_eq_true, hbeq]
      simp [hIE, List.append_assoc]
    · simp [pydiffAtBranch]
  · refine ⟨[Event.checkout start_commit, Event.copyFile ef sf (rca start_commit ef),
             Event.checkout t.branch, Event.pydiffRun sf ef t.branch], ?_, ?_⟩
    · unfold bindM
      rw [git_checkout_run_ne valid repository_dir start_commit _ t hIE hs hvb]
      simp only [copy2, fileContent, hlk, runPydiff, List.lookup, beq_self_eq_true, hbeq]
      simp [List.append_assoc]
    · simp [pydiffAtBranch]

/-- Full run of `bytecode_diff` when all three checkouts (end revision, start
revision, and the two restores) succeed and the repository file path is not
shadowed by a temporary file: it returns the collaborator's diff of the
start- and end-revision contents of the file, restores branch and working
directory, bumps the temporary-directory counter, leaves the directory and
file lists cleaned of the temporary directory, and logs only pydiff
invocations that ran at the end revision. -/
lemma bytecode_diff_run (valid : String → Bool)
    (rca : String → String → String) (pf : String → String → String)
    (filename repository_dir start_commit end_commit : String) (s : St)
    (hb : valid s.branch = true) (hs : valid start_commit = true)
    (he : valid end_commit = true)
    (hlookup : s.files.lookup (pathJoin repository_dir filename) = none)
    (hneq : pathJoin repository_dir filename
            ≠ pathJoin (tempDirName s.nextTemp) (basename filename)) :
    ∃ tail : List Event,
      bytecode_diff valid rca pf filename repository_dir start_commit end_commit s
        = (Except.ok (pf (rca start_commit (pathJoin repository_dir filename))
                         (rca end_commit (pathJoin repository_dir filename))),
           { branch := s.branch, cwd := s.cwd, nextTemp := s.nextTemp + 1,
             dirs := (s.dirs ++ [tempDirName s.nextTemp]).filter
                 (fun x => x ≠ tempDirName s.nextTemp
                           && !(isUnder (tempDirName s.nextTemp) x)),
             files := ((pathJoin (tempDirName s.nextTemp) (basename filename),
                        rca start_commit (pathJoin repository_dir filename))
                       :: s.files).filter
                 (fun kv => !(isUnder (tempDirName s.nextTemp) kv.1)),
             log := s.log ++ tail })
      ∧ tail.all (pydiffAtBranch end_commit) = true := by
  unfold bytecode_diff
  by_cases hOB : s.branch = end_commit
  · subst hOB
    obtain ⟨tail1, heq1, hall1⟩ := inner_copy_pydiff_run valid rca pf repository_dir
      start_commit s.branch
      (pathJoin (tempDirName s.nextTemp) (basename filename))
      (pathJoin repository_dir filename)
      ({ s with cwd := repository_dir, nextTemp := s.nextTemp + 1, dirs := s.dirs ++ [tempDirName s.nextTemp] })
      hs rfl hb hlookup hneq
    refine ⟨tail1, ?_, hall1⟩
    rw [git_checkout_run_self valid repository_dir s.branch _ s rfl]
    simp only [temporary_directory]
    dsimp only
    rw [heq1]
  · obtain ⟨tail1, heq1, hall1⟩ := inner_copy_pydiff_run valid rca pf repository_dir
      start_commit end_commit
      (pathJoin (tempDirName s.nextTemp) (basename filename))
      (pathJoin repository_dir filename)
      ({ s with cwd := repository_dir, branch := end_commit, log := s.log ++ [Event.checkout end_commit], nextTemp := s.nextTemp + 1, dirs := s.dirs ++ [tempDirName s.nextTemp] })
      hs rfl he hlookup hneq
    refine ⟨Event.checkout end_commit :: (tail1 ++ [Event.checkout s.branch]), ?_, ?_⟩
    · rw [git_checkout_run_ne valid repository_dir end_commit _ s hOB he hb]
      simp only [temporary_directory]
      dsimp only
      rw [heq1]
      simp [List.append_assoc]
    · simp only [List.all_cons, List.all_append, hall1, pydiffAtBranch,
        Bool.true_and, Bool.and_true]
      simp

/-- Claim C6: for every modified filename, after `bytecode_diff` returns normally
(all checkouts succeeding) its net effect is pure: the checked-out revision
and the process working directory equal their values before the call, the
temporary directory used for the start-revision copy (and everything under
it) no longer exists, and every `pydiff` invocation it logged ran after the
nested start-revision checkout scope had closed — i.e. with the repository
checked out at the end revision. -/
theorem bytecode_diff_pure_effect (valid : String → Bool)
    (rca : String → String → String) (pf : String → String → String)
    (filename repository_dir start_commit end_commit : String) (s : St)
    (hb : valid s.branch = true) (hs : valid start_commit = true)
    (he : valid end_commit = true)
    (hlookup : s.files.lookup (pathJoin repository_dir filename) = none)
    (hneq : pathJoin repository_dir filename
            ≠ pathJoin (tempDirName s.nextTemp) (basename filename)) :
    (bytecode_diff valid rca pf filename repository_dir start_commit end_commit s).1.isOk
      = true ∧
    (bytecode_diff valid rca pf filename repository_dir start_commit end_commit s).2.branch
      = s.branch ∧
    (bytecode_diff valid rca pf filename repository_dir start_commit end_commit s).2.cwd
      = s.cwd ∧
    ((bytecode_diff valid rca pf filename repository_dir start_commit end_commit s).2.dirs.all
        (fun x => x ≠ tempDirName s.nextTemp && !(isUnder (tempDirName s.nextTemp) x)))
      = true ∧
    ((bytecode_diff valid rca pf filename repository_dir start_commit end_commit s).2.files.all
        (fun kv => !(isUnder (tempDirName s.nextTemp) kv.1)))
      = true ∧
    (((bytecode_diff valid rca pf filename repository_dir start_commit end_commit s).2.log.drop
        s.log.length).all (pydiffAtBranch end_commit))
      = true := by
  obtain ⟨tail, heq, hall⟩ := bytecode_diff_run valid rca pf filename repository_dir
    start_commit end_commit s hb hs he hlookup hneq
  rw [heq]
  refine ⟨rfl, rfl, rfl, ?_, ?_, ?_⟩
  · rw [List.all_eq_true]
    intro x hx
    exact (List.mem_filter.mp hx).2
  · rw [List.all_eq_true]
    intro kv hkv
    exact (List.mem_filter.mp hkv).2
  · dsimp only
    rw [List.drop_left]
    exact hall

/-- Witness for C6 at a concrete repository state and collaborators. -/
theorem bytecode_diff_pure_effect_witness :
    (bytecode_diff (fun _ => true) (fun b p => b ++ "@" ++ p) (fun a b => a ++ "|" ++ b)
        "f.py" "/r" "m" "d" ⟨"main", "/home", 0, [], [], []⟩).1.isOk = true ∧
    (bytecode_diff (fun _ => true) (fun b p => b ++ "@" ++ p) (fun a b => a ++ "|" ++ b)
        "f.py" "/r" "m" "d" ⟨"main", "/home", 0, [], [], []⟩).2.branch = "main" ∧
    (bytecode_diff (fun _ => true) (fun b p => b ++ "@" ++ p) (fun a b => a ++ "|" ++ b)
        "f.py" "/r" "m" "d" ⟨"main", "/home", 0, [], [], []⟩).2.cwd = "/home" ∧
    ((bytecode_diff (fun _ => true) (fun b p => b ++ "@" ++ p) (fun a b => a ++ "|" ++ b)
        "f.py" "/r" "m" "d" ⟨"main", "/home", 0, [], [], []⟩).2.dirs.all
        (fun x => x ≠ tempDirName 0 && !(isUnder (tempDirName 0) x))) = true ∧
    ((bytecode_diff (fun _ => true) (fun b p => b ++ "@" ++ p) (fun a b => a ++ "|" ++ b)
        "f.py" "/r" "m" "d" ⟨"main", "/home", 0, [], [], []⟩).2.files.all
        (fun kv => !(isUnder (tempDirName 0) kv.1))) = true ∧
    (((bytecode_diff (fun _ => true) (fun b p => b ++ "@" ++ p) (fun a b => a ++ "|" ++ b)
        "f.py" "/r" "m" "d" ⟨"main", "/home", 0, [], [], []⟩).2.log.drop 0).all
        (pydiffAtBranch "d")) = true :=
  bytecode_diff_pure_effect (fun _ => true) (fun b p => b ++ "@" ++ p)
    (fun a b => a ++ "|" ++ b) "f.py" "/r" "m" "d" ⟨"main", "/home", 0, [], [], []⟩
    rfl rfl rfl rfl (by decide)

/-- Claim C10: for every filename whose repository content is identical at the two
revisions — in particular whenever start and end are the same commit — and
under the collaborator contract that the compiled-form diff tool produces
empty output on equivalent inputs, `bytecode_diff` returns empty output. -/
theorem bytecode_diff_unchanged_file_empty (valid : String → Bool)
    (rca : String → String → String) (pf : String → String → String)
    (filename repository_dir start_commit end_commit : String) (s : St)
    (hb : valid s.branch = true) (hs : valid start_commit = true)
    (he : valid end_commit = true)
    (hlookup : s.files.lookup (pathJoin repository_dir filename) = none)
    (hneq : pathJoin repository_dir filename
            ≠ pathJoin (tempDirName s.nextTemp) (basename filename))
    (hsame : rca start_commit (pathJoin repository_dir filename)
             = rca end_commit (pathJoin repository_dir filename))
    (hpd : ∀ c : String, pf c c = "") :
    (bytecode_diff valid rca pf filename repository_dir start_commit end_commit s).1
      = Except.ok "" := by
  obtain ⟨tail, heq, -⟩ := bytecode_diff_run valid rca pf filename repository_dir
    start_commit end_commit s hb hs he hlookup hneq
  rw [heq]
  dsimp only
  rw [hsame, hpd]

/-- Witness for C10: a file with identical content at the two revisions and a
pydiff collaborator that reports equal compiled forms as empty output. -/
theorem bytecode_diff_unchanged_file_empty_witness :
    (bytecode_diff (fun _ => true) (fun _ _ => "content")
        (fun a b => if a == b then "" else "DIFF")
        "f.py" "/r" "m" "d" ⟨"main", "/home", 0, [], [], []⟩).1 = Except.ok "" :=
  bytecode_diff_unchanged_file_empty (fun _ => true) (fun _ _ => "content")
    (fun a b => if a == b then "" else "DIFF")
    "f.py" "/r" "m" "d" ⟨"main", "/home", 0, [], [], []⟩
    rfl rfl rfl rfl (by decide) rfl (fun c => by simp)

end Review8
